import Mathlib

/-!
Verification of the transcript normalization / caching pipeline and the
AI-derivation orchestrators of `src/lib/youtube.ts` (vidiopintar.com).

The TypeScript source is shallowly embedded: every exported function becomes a
pure Lean function over an explicit environment record describing the outcomes
of its external collaborators (current-user resolution, repositories, the
transcript provider, the LLM calls, telemetry).  JavaScript string and array
primitives used by the source (`join`, `split(/\s+/)`, `includes`, number
coercion in `-`, truthiness) are embedded as executable Lean functions.
-/

namespace Vidiopintar

/-! ## JavaScript string primitives -/

/-- Whitespace characters of the JS `\s` class that occur in transcript text. -/
def isWs (c : Char) : Bool :=
  c = ' ' || c = '\t' || c = '\n' || c = '\r'

/-- JS `Array.prototype.join(sep)`: empty string for `[]`, no trailing separator. -/
def joinSep (sep : String) : List String → String
  | [] => ""
  | [x] => x
  | x :: y :: xs => x ++ sep ++ joinSep sep (y :: xs)

/-- Worker for `String.prototype.split(/\s+/)`.  `acc` is the reversed current
token, `lastWs` records whether the previous character was whitespace (a run of
whitespace chars is a single separator). -/
def splitWsGo : List Char → List Char → Bool → List String
  | [], acc, _ => [String.mk acc.reverse]
  | c :: rest, acc, lastWs =>
    if isWs c then
      if lastWs then splitWsGo rest acc true
      else String.mk acc.reverse :: splitWsGo rest [] true
    else splitWsGo rest (c :: acc) false

/-- JS `s.split(/\s+/)`: split on maximal whitespace runs; a leading or trailing
run contributes an empty-string element, and `"".split` gives `[""]`. -/
def jsSplitWs (s : String) : List String :=
  splitWsGo s.data [] false

/-- State machine counting maximal non-whitespace runs; the flag is true while
inside a run. -/
def countTokensAux : List Char → Bool → Nat
  | [], _ => 0
  | c :: rest, inTok =>
    if isWs c then countTokensAux rest false
    else if inTok then countTokensAux rest true
    else countTokensAux rest true + 1

/-- Number of whitespace-delimited tokens of a string (maximal runs of
non-whitespace characters). -/
def countWsTokens (s : String) : Nat :=
  countTokensAux s.data false

/-- Run-state after processing a character list, for composing
`countTokensAux` across an append. -/
def runState : List Char → Bool → Bool
  | [], b => b
  | c :: rest, _ => runState rest (if isWs c then false else true)

/-- A character list free of whitespace. -/
def noWs (l : List Char) : Bool :=
  l.all (fun c => !isWs c)

/-- JS `s.includes(pat)`: some suffix of `s` has `pat` as a prefix. -/
def jsIncludes (s pat : String) : Bool :=
  (List.range (s.data.length + 1)).any (fun k => pat.data.isPrefixOf (s.data.drop k))

/-- JS `ToNumber` on a string, restricted to the shapes this pipeline meets:
a non-empty all-digit string converts to the integer it spells; every other
string (in particular the colon-bearing `HH:mm:ss` clock strings) is `NaN`,
represented as `none`. -/
def jsToNumber (s : String) : Option Nat :=
  if s.data ≠ [] ∧ s.data.all Char.isDigit then
    some (s.data.foldl (fun n c => n * 10 + (c.toNat - 48)) 0)
  else none

/-- JS truthiness of an optional string (`undefined` and `""` are falsy). -/
def strTruthy : Option String → Bool
  | some s => s != ""
  | none => false

/-- JS truthiness of an optional number (`undefined` and `0` are falsy). -/
def numTruthy : Option Nat → Bool
  | some n => n != 0
  | none => false

/-! ## Time formatting -/

/-- Two-digit zero padding, as produced by `date-fns` format fields. -/
def pad2 (n : Nat) : String :=
  if n < 10 then "0" ++ toString n else toString n

/-- The rendering `format(addSeconds(midnight, s), "HH:mm:ss")` from `date-fns`: a duration
rendered on a 24-hour clock anchored at midnight. -/
def formatHMS (totalSeconds : Nat) : String :=
  pad2 (totalSeconds / 3600 % 24) ++ ":" ++ pad2 (totalSeconds % 3600 / 60) ++
    ":" ++ pad2 (totalSeconds % 60)

/-- Modelled from the spec: `formatTime` lives in `src/lib/utils`, which is not
among the sources; the spec describes it as "a short mm:ss-or-similar short
form" rendering of the start offset, embedded here as zero-padded `mm:ss`. -/
def formatTime (totalSeconds : Nat) : String :=
  pad2 (totalSeconds / 60) ++ ":" ++ pad2 (totalSeconds % 60)

/-! ## Data model -/

/-- A raw entry from the external transcript provider
(`youtube-transcript-plus`); `offset` and `duration` may be missing. -/
structure RawTranscriptEntry where
  text : String
  offset : Option Nat
  duration : Option Nat
deriving Repr, DecidableEq

/-- A normalized transcript segment as produced and persisted by
`fetchVideoTranscript`. -/
structure TranscriptSegment where
  start : String
  «end» : String
  text : String
  isChapterStart : Bool
deriving Repr, DecidableEq

/-- A stored transcript row as returned by
`TranscriptRepository.getByVideoId` (the fields the code reads). -/
structure StoredSegmentRow where
  start : String
  «end» : String
  text : String
  isChapterStart : Bool
deriving Repr, DecidableEq

/-- The acting user, as resolved by `getCurrentUser`. -/
structure User where
  id : Nat
deriving Repr, DecidableEq

/-- A user-video association row (`UserVideoRepository`). -/
structure UserVideo where
  userId : Nat
  youtubeId : String
  summary : String
deriving Repr, DecidableEq

/-- Canonical video metadata (the fields `generateUserVideoSummary` reads). -/
structure Video where
  youtubeId : String
  title : String
  description : Option String
deriving Repr, DecidableEq

/-- A segment as consumed by the orchestrators, which only read `.text`. -/
structure TextSegment where
  text : String
deriving Repr, DecidableEq

/-! ## Normalization (`fetchVideoTranscript`, provider branch) -/

/-- The inline chapter-start heuristic of `fetchVideoTranscript`:
`item.text.length < 30 && !item.text.includes("segment") &&
item.text !== "N/A" && (index === 0 || index % 10 === 0)`. -/
def chapterHeuristic (text : String) (index : Nat) : Bool :=
  decide (text.length < 30) && !(jsIncludes text "segment") &&
    decide (text ≠ "N/A") && (decide (index = 0) || decide (index % 10 = 0))

/-- The body of the `transcriptResult.map((item, index) => ...)` callback. -/
def normalizeEntry (index : Nat) (item : RawTranscriptEntry) : TranscriptSegment :=
  let start := item.offset.getD 0
  let «end» := start + item.duration.getD 0
  { start := formatHMS start
    «end» := formatHMS «end»
    text := if item.text ≠ "N/A" then item.text else "Segment at " ++ formatTime start
    isChapterStart := chapterHeuristic item.text index }

/-- Index-aware map `transcriptResult.map((item, index) => ...)` over the raw
entries. -/
def normalizeTranscript (entries : List RawTranscriptEntry) : List TranscriptSegment :=
  entries.enum.map (fun p => normalizeEntry p.1 p.2)

/-! ## The stored-segments sort (`.sort((a, b) => a.start - b.start)`) -/

/-- The comparator `(a, b) => a.start - b.start`: JS coerces both `HH:mm:ss`
strings with `ToNumber`; if either is `NaN` the comparator result is `NaN`,
which `Array.prototype.sort` treats as `0`. -/
def startCmp (a b : TranscriptSegment) : Int :=
  match jsToNumber a.start, jsToNumber b.start with
  | some x, some y => (x : Int) - (y : Int)
  | _, _ => 0

/-- Stable insertion: `x` goes after every already-placed `y` with `le y x`. -/
def insertByLe (le : TranscriptSegment → TranscriptSegment → Bool)
    (x : TranscriptSegment) : List TranscriptSegment → List TranscriptSegment
  | [] => [x]
  | y :: ys => if le y x then y :: insertByLe le x ys else x :: y :: ys

/-- Stable sort (ES2019 `Array.prototype.sort` is stable) as left-to-right
stable insertion. -/
def stableSortByLe (le : TranscriptSegment → TranscriptSegment → Bool)
    (l : List TranscriptSegment) : List TranscriptSegment :=
  l.foldl (fun acc x => insertByLe le x acc) []

/-- The call `segments.sort((a, b) => a.start - b.start)` as executed by JS. -/
def jsSortByStartSub (l : List TranscriptSegment) : List TranscriptSegment :=
  stableSortByLe (fun a b => decide (startCmp a b ≤ 0)) l

/-- Lexicographic order on character lists (the order of `HH:mm:ss` clock
strings agrees with the order of the durations they render). -/
def charListLe : List Char → List Char → Bool
  | [], _ => true
  | _ :: _, [] => false
  | a :: as, b :: bs => if a = b then charListLe as bs else decide (a < b)

/-- Lexicographic order on strings, executable in the kernel. -/
def strLe (a b : String) : Bool :=
  charListLe a.data b.data

/-- Adjacent pairs are ascending. -/
def ascendingBy : List String → Bool
  | [] => true
  | [_] => true
  | a :: b :: rest => strLe a b && ascendingBy (b :: rest)

/-- The segment list is ascending on the `start` field, as the spec requires
of retrieved segments. -/
def sortedByStart (l : List TranscriptSegment) : Bool :=
  ascendingBy (l.map TranscriptSegment.start)

/-! ## `fetchVideoTranscript` -/

/-- Collaborator outcomes for one `fetchVideoTranscript` call:
`getCurrentUser` may throw, `TranscriptRepository.getByVideoId` returns the
stored rows, `fetchTranscript` (the provider) may throw,
`TranscriptRepository.upsertSegments` may throw, and
`UserVideoRepository.getByUserAndYoutubeId` may find an existing row. -/
structure TranscriptEnv where
  currentUser : Except Unit User
  storedRows : List StoredSegmentRow
  providerResult : Except Unit (List RawTranscriptEntry)
  persistOk : Except Unit Unit
  existingUserVideo : Option UserVideo

/-- The structured result of `fetchVideoTranscript`; the success shape
`{ segments, userVideo }` carries `error := false`. -/
structure TranscriptResult where
  segments : List TranscriptSegment
  error : Bool
  errorMessage : Option String
  userVideo : Option UserVideo
deriving Repr, DecidableEq

/-- The catch-all result of `fetchVideoTranscript`. -/
def errorTranscriptResult : TranscriptResult :=
  { segments := []
    error := true
    errorMessage := some "Transcript not available for this video"
    userVideo := none }

/-- The `(item) => ({ start, end, text, isChapterStart })` mapping applied to
stored rows. -/
def toSegment (item : StoredSegmentRow) : TranscriptSegment :=
  { start := item.start
    «end» := item.«end»
    text := item.text
    isChapterStart := item.isChapterStart }

/-- The lookup-or-lazily-create step for the user-video association; the
boolean records whether an association was created by this call. -/
def lookupOrCreateUserVideo (existing : Option UserVideo) (u : User)
    (videoId : String) : UserVideo × Bool :=
  match existing with
  | some uv => (uv, false)
  | none => ({ userId := u.id, youtubeId := videoId, summary := "" }, true)

/-- Function `fetchVideoTranscript(videoId)`: the returned pair is the structured
result together with a flag recording whether a `UserVideoRepository.upsert`
creating the association was performed. -/
def fetchVideoTranscript (env : TranscriptEnv) (videoId : String) :
    TranscriptResult × Bool :=
  match env.currentUser with
  | .error _ => (errorTranscriptResult, false)
  | .ok user =>
    if 0 < env.storedRows.length then
      let segments := jsSortByStartSub (env.storedRows.map toSegment)
      let uvc := lookupOrCreateUserVideo env.existingUserVideo user videoId
      ({ segments := segments
         error := false
         errorMessage := none
         userVideo := some uvc.1 }, uvc.2)
    else
      match env.providerResult with
      | .error _ => (errorTranscriptResult, false)
      | .ok transcriptResult =>
        if transcriptResult.length = 0 then (errorTranscriptResult, false)
        else
          let segments := normalizeTranscript transcriptResult
          match env.persistOk with
          | .error _ => (errorTranscriptResult, false)
          | .ok _ =>
            let uvc := lookupOrCreateUserVideo env.existingUserVideo user videoId
            ({ segments := segments
               error := false
               errorMessage := none
               userVideo := some uvc.1 }, uvc.2)

/-! ## Language resolution (shared by both orchestrators) -/

/-- Collaborator outcomes for the inline language-resolution block:
`getCurrentUser` may throw and `UserRepository.getPreferredLanguage` may throw
or return a nullable string. -/
structure LangEnv where
  currentUser : Except Unit User
  savedLanguage : Except Unit (Option String)

/-- The block `let userLanguage = "en"; try ... catch ...` present in
both `generateUserVideoSummary` and `generateQuickStartQuestions`. -/
def resolveUserLanguage (env : LangEnv) : String :=
  match env.currentUser with
  | .error _ => "en"
  | .ok _ =>
    match env.savedLanguage with
    | .error _ => "en"
    | .ok savedLanguage =>
      if savedLanguage = some "en" ∨ savedLanguage = some "id" then
        savedLanguage.getD "en"
      else "en"

/-! ## `generateUserVideoSummary` -/

/-- JS template-literal rendering of an array: elements joined with commas. -/
def jsArrayToString (l : List String) : String :=
  joinSep "," l

/-- Collaborators of `generateUserVideoSummary`: the language block and the
external free-text summarizer `generateSummary(text, language, youtubeId,
userVideoId)` (opaque; its result is modelled as a string). -/
structure SummaryEnv where
  lang : LangEnv
  generateSummary : String → String → String → Option Nat → String

/-- Function `generateUserVideoSummary(video, segments, userVideoId?)`. -/
def generateUserVideoSummary (env : SummaryEnv) (video : Video)
    (segments : List TextSegment) (userVideoId : Option Nat) : String :=
  let transcriptText := segments.map TextSegment.text
  let textToSummarize :=
    video.title ++ "\n" ++ video.description.getD "" ++ "\n" ++
      jsArrayToString transcriptText
  let userLanguage := resolveUserLanguage env.lang
  env.generateSummary textToSummarize userLanguage video.youtubeId userVideoId

/-! ## `generateQuickStartQuestions` -/

/-- The typed object returned by the structured-generation service. -/
structure QObject where
  questions : List String
deriving Repr, DecidableEq

/-- The `generateObject` result; `object` may be absent. -/
structure GenResult where
  object : Option QObject
deriving Repr, DecidableEq

/-- Collaborators of `generateQuickStartQuestions`: the language block, the
prompt-template provider `getQuickStartPrompt`, the structured-generation
call, and the outcome of the telemetry `try` block (`getCurrentUser` plus
`trackGenerateTextUsage`). -/
structure QuickStartEnv where
  lang : LangEnv
  promptTemplate : String → String
  genResult : GenResult
  trackOk : Except Unit Unit

/-- Observable outcome of one `generateQuickStartQuestions` call: the prompt
sent to the model, the returned question list, whether telemetry was recorded,
and the persisted `(userVideoId, questions)` pair when the persist branch was
taken. -/
structure QuickStartOutcome where
  prompt : String
  questions : List String
  trackRecorded : Bool
  persistedQuestions : Option (Nat × List String)
deriving Repr, DecidableEq

/-- The transcript text embedded in the prompt: join the segment texts with
single spaces, `split(/\s+/)`, `slice(0, 6000)`, rejoin with single spaces. -/
def quickStartTranscriptText (transcriptSegments : List TextSegment) : String :=
  let fullTranscript := joinSep " " (transcriptSegments.map TextSegment.text)
  let words := jsSplitWs fullTranscript
  joinSep " " (words.take 6000)

/-- Function `generateQuickStartQuestions(transcriptSegments, videoTitle?,
videoDescription?, userVideoId?, videoId?)`. -/
def generateQuickStartQuestions (env : QuickStartEnv)
    (transcriptSegments : List TextSegment)
    (videoTitle videoDescription : Option String) (userVideoId : Option Nat)
    (_videoId : Option String) : QuickStartOutcome :=
  let userLanguage := resolveUserLanguage env.lang
  let truncatedTranscript := quickStartTranscriptText transcriptSegments
  let promptText := env.promptTemplate userLanguage
  let contextSection :=
    (if strTruthy videoTitle then "Video Title: " ++ videoTitle.getD "" ++ "\n" else "") ++
      (if strTruthy videoDescription then
        "Video Description: " ++ videoDescription.getD "" ++ "\n" else "")
  let prompt := promptText ++ "\n\n" ++
    (if contextSection ≠ "" then contextSection ++ "\n" else "") ++
    "Here is the video transcript:\n\n<transcript>\n" ++ truncatedTranscript ++
    "\n</transcript>\n"
  let trackRecorded :=
    match env.trackOk with
    | .ok _ => true
    | .error _ => false
  let questions := (env.genResult.object.map QObject.questions).getD []
  let persistedQuestions :=
    if numTruthy userVideoId && decide (0 < questions.length) then
      some (userVideoId.getD 0, questions)
    else none
  { prompt := prompt
    questions := questions
    trackRecorded := trackRecorded
    persistedQuestions := persistedQuestions }

/-- Concrete stored-rows environment whose rows are stored in descending
`start` order. -/
def unsortedRowsEnv : TranscriptEnv :=
  { currentUser := .ok ⟨1⟩
    storedRows :=
      [⟨"00:00:10", "00:00:12", "later", false⟩,
       ⟨"00:00:05", "00:00:07", "earlier", false⟩]
    providerResult := .ok []
    persistOk := .ok ()
    existingUserVideo := some ⟨1, "vid", ""⟩ }

/-- Concrete environment in which no rows are stored and the provider returns
no entries. -/
def emptyProviderEnv : TranscriptEnv :=
  { currentUser := .ok ⟨1⟩
    storedRows := []
    providerResult := .ok []
    persistOk := .ok ()
    existingUserVideo := none }

/-- Concrete quick-start environment producing one question. -/
def oneQuestionEnv : QuickStartEnv :=
  { lang := ⟨.ok ⟨1⟩, .ok (some "en")⟩
    promptTemplate := fun _ => "PROMPT"
    genResult := ⟨some ⟨["q1"]⟩⟩
    trackOk := .ok () }

/-! ## Helper lemmas -/

theorem isPrefixOf_eq_true_iff (l₁ l₂ : List Char) :
    l₁.isPrefixOf l₂ = true ↔ ∃ t, l₁ ++ t = l₂ := by
  induction l₁ generalizing l₂ with
  | nil => simp [List.isPrefixOf]
  | cons a as ih =>
    cases l₂ with
    | nil => simp [List.isPrefixOf]
    | cons b bs =>
      simp only [List.isPrefixOf, Bool.and_eq_true, beq_iff_eq, ih,
        List.cons_append, List.cons.injEq]
      constructor
      · rintro ⟨rfl, t, rfl⟩
        exact ⟨t, rfl, rfl⟩
      · rintro ⟨t, rfl, rfl⟩
        exact ⟨rfl, t, rfl⟩

theorem jsIncludes_eq_true_iff (s pat : String) :
    jsIncludes s pat = true ↔ ∃ pre post, s.data = pre ++ pat.data ++ post := by
  unfold jsIncludes
  rw [List.any_eq_true]
  constructor
  · rintro ⟨k, _, hpre⟩
    rw [isPrefixOf_eq_true_iff] at hpre
    obtain ⟨t, ht⟩ := hpre
    refine ⟨s.data.take k, t, ?_⟩
    conv_lhs => rw [← List.take_append_drop k s.data]
    rw [← ht, List.append_assoc]
  · rintro ⟨pre, post, hs⟩
    refine ⟨pre.length, ?_, ?_⟩
    · rw [List.mem_range]
      have hle : pre.length ≤ s.data.length := by
        rw [hs]
        simp [List.length_append]
      omega
    · rw [isPrefixOf_eq_true_iff]
      refine ⟨post, ?_⟩
      rw [hs, List.append_assoc, List.drop_left]

theorem jsIncludes_eq_false_iff (s pat : String) :
    jsIncludes s pat = false ↔ ¬∃ pre post, s.data = pre ++ pat.data ++ post := by
  rw [← jsIncludes_eq_true_iff]
  simp

theorem length_normalizeTranscript (entries : List RawTranscriptEntry) :
    (normalizeTranscript entries).length = entries.length := by
  simp [normalizeTranscript, List.enum_length]

theorem get_normalizeTranscript (entries : List RawTranscriptEntry) (i : Nat)
    (hi : i < entries.length) (hi' : i < (normalizeTranscript entries).length) :
    (normalizeTranscript entries).get ⟨i, hi'⟩ =
      normalizeEntry i (entries.get ⟨i, hi⟩) := by
  simp [normalizeTranscript, List.get_eq_getElem, List.getElem_map,
    List.getElem_enum]

/-! ## Claims about normalization -/

/-- Claim C2: the chapter-start flag computed during normalization is true iff
the entry text is shorter than 30 characters, does not contain the substring
"segment", is not the sentinel "N/A", and the index is 0 or a multiple of
10. -/
theorem chapter_flag_iff (entries : List RawTranscriptEntry) (i : Nat)
    (hi : i < entries.length) (hi' : i < (normalizeTranscript entries).length) :
    ((normalizeTranscript entries).get ⟨i, hi'⟩).isChapterStart = true ↔
      ((entries.get ⟨i, hi⟩).text.length < 30 ∧
        (¬∃ pre post,
          (entries.get ⟨i, hi⟩).text.data = pre ++ "segment".data ++ post) ∧
        (entries.get ⟨i, hi⟩).text ≠ "N/A" ∧ (i = 0 ∨ i % 10 = 0)) := by
  rw [get_normalizeTranscript entries i hi hi']
  simp only [normalizeEntry, chapterHeuristic, Bool.and_eq_true,
    Bool.or_eq_true, decide_eq_true_eq, Bool.not_eq_true',
    jsIncludes_eq_false_iff, and_assoc]

/-- Witness for C2 at a one-entry transcript. -/
theorem chapter_flag_iff_witness :
    ((normalizeTranscript [⟨"Intro", some 0, some 5⟩]).get
      ⟨0, by decide⟩).isChapterStart = true := by
  refine (chapter_flag_iff [⟨"Intro", some 0, some 5⟩] 0 (by decide)
    (by decide)).mpr ⟨by decide, ?_, by decide, Or.inl rfl⟩
  intro hex
  have hinc : jsIncludes "Intro" "segment" = true :=
    (jsIncludes_eq_true_iff "Intro" "segment").mpr hex
  exact absurd hinc (by decide)

/-- Claim C5: normalization preserves length and order; the segment at index
`i` has `start = formatHMS offset` and `end = formatHMS (offset + duration)`,
missing offset or duration defaulting to 0. -/
theorem normalize_length_and_times (entries : List RawTranscriptEntry) :
    (normalizeTranscript entries).length = entries.length ∧
      ∀ i (hi : i < entries.length)
        (hi' : i < (normalizeTranscript entries).length),
        ((normalizeTranscript entries).get ⟨i, hi'⟩).start =
            formatHMS ((entries.get ⟨i, hi⟩).offset.getD 0) ∧
          ((normalizeTranscript entries).get ⟨i, hi'⟩).«end» =
            formatHMS ((entries.get ⟨i, hi⟩).offset.getD 0 +
              (entries.get ⟨i, hi⟩).duration.getD 0) := by
  refine ⟨length_normalizeTranscript entries, fun i hi hi' => ?_⟩
  rw [get_normalizeTranscript entries i hi hi']
  exact ⟨rfl, rfl⟩

/-- Witness for C5 at a one-entry transcript with fractional-free times. -/
theorem normalize_length_and_times_witness :
    (normalizeTranscript [⟨"hello", some 3725, some 10⟩]).length = 1 ∧
      ((normalizeTranscript [⟨"hello", some 3725, some 10⟩]).get
          ⟨0, by decide⟩).start = "01:02:05" ∧
      ((normalizeTranscript [⟨"hello", some 3725, some 10⟩]).get
          ⟨0, by decide⟩).«end» = "01:02:15" := by
  obtain ⟨h1, h2⟩ := normalize_length_and_times [⟨"hello", some 3725, some 10⟩]
  obtain ⟨hs, he⟩ := h2 0 (by decide) (by decide)
  exact ⟨h1, hs, he⟩

/-- Claim C6: an entry whose text is the sentinel "N/A" produces the
placeholder text `"Segment at " ++ formatTime start`, and its chapter flag is
computed from the original "N/A" text, hence false. -/
theorem na_placeholder_and_flag (entries : List RawTranscriptEntry) (i : Nat)
    (hi : i < entries.length) (hi' : i < (normalizeTranscript entries).length)
    (hna : (entries.get ⟨i, hi⟩).text = "N/A") :
    ((normalizeTranscript entries).get ⟨i, hi'⟩).text =
        "Segment at " ++ formatTime ((entries.get ⟨i, hi⟩).offset.getD 0) ∧
      ((normalizeTranscript entries).get ⟨i, hi'⟩).isChapterStart = false := by
  rw [get_normalizeTranscript entries i hi hi']
  simp only [List.get_eq_getElem] at hna
  constructor
  · simp [normalizeEntry, hna]
  · simp [normalizeEntry, chapterHeuristic, hna]

/-- Witness for C6 at a one-entry "N/A" transcript. -/
theorem na_placeholder_and_flag_witness :
    ((normalizeTranscript [⟨"N/A", some 65, some 5⟩]).get ⟨0, by decide⟩).text =
        "Segment at 01:05" ∧
      ((normalizeTranscript [⟨"N/A", some 65, some 5⟩]).get
        ⟨0, by decide⟩).isChapterStart = false := by
  obtain ⟨ht, hf⟩ := na_placeholder_and_flag [⟨"N/A", some 65, some 5⟩] 0
    (by decide) (by decide) rfl
  refine ⟨?_, hf⟩
  rw [ht]
  decide

/-! ## Token-count bound for the quick-start prompt -/

theorem countTokensAux_append (xs ys : List Char) (b : Bool) :
    countTokensAux (xs ++ ys) b =
      countTokensAux xs b + countTokensAux ys (runState xs b) := by
  induction xs generalizing b with
  | nil => simp [countTokensAux, runState]
  | cons c rest ih =>
    by_cases h : isWs c = true
    · cases b <;> simp [countTokensAux, runState, h, ih]
    · cases b
      · simp [countTokensAux, runState, h, ih]
        omega
      · simp [countTokensAux, runState, h, ih]

theorem countTokensAux_of_noWs (l : List Char) (h : noWs l = true) :
    countTokensAux l true = 0 ∧ countTokensAux l false ≤ 1 := by
  induction l with
  | nil => simp [countTokensAux]
  | cons c rest ih =>
    simp only [noWs, List.all_cons, Bool.and_eq_true, Bool.not_eq_true'] at h
    obtain ⟨hc, hrest⟩ := h
    obtain ⟨ih1, _⟩ := ih hrest
    simp [countTokensAux, hc, ih1]

theorem countTokens_joinSep_le (pieces : List String)
    (h : ∀ p ∈ pieces, noWs p.data = true) :
    countWsTokens (joinSep " " pieces) ≤ pieces.length := by
  induction pieces with
  | nil => simp [joinSep, countWsTokens, countTokensAux]
  | cons x rest ih =>
    cases rest with
    | nil =>
      have hx := h x (by simp)
      simpa [joinSep, countWsTokens] using (countTokensAux_of_noWs x.data hx).2
    | cons y rest' =>
      have hx := h x (by simp)
      have ihr := ih (fun p hp => h p (by simp [hp]))
      have hdata : (joinSep " " (x :: y :: rest')).data =
          x.data ++ (' ' :: (joinSep " " (y :: rest')).data) := by
        show (x ++ " " ++ joinSep " " (y :: rest')).data = _
        rw [String.data_append, String.data_append, List.append_assoc]
        rfl
      have hstep : countWsTokens (joinSep " " (x :: y :: rest')) =
          countTokensAux x.data false +
            countTokensAux (joinSep " " (y :: rest')).data false := by
        rw [countWsTokens, hdata, countTokensAux_append]
        simp [countTokensAux, isWs]
      rw [hstep]
      have hx1 := (countTokensAux_of_noWs x.data hx).2
      have ihr' : countTokensAux (joinSep " " (y :: rest')).data false ≤
          (y :: rest').length := ihr
      simp only [List.length_cons] at ihr' ⊢
      omega

theorem splitWsGo_noWs (l : List Char) (acc : List Char) (b : Bool)
    (hacc : noWs acc = true) :
    ∀ p ∈ splitWsGo l acc b, noWs p.data = true := by
  induction l generalizing acc b with
  | nil =>
    intro p hp
    simp only [splitWsGo, List.mem_singleton] at hp
    subst hp
    simpa [noWs, List.all_reverse] using hacc
  | cons c rest ih =>
    intro p hp
    by_cases h : isWs c = true
    · cases b with
      | true => exact ih acc true hacc p (by simpa [splitWsGo, h] using hp)
      | false =>
        simp [splitWsGo, h] at hp
        rcases hp with hp | hp
        · subst hp
          simpa [noWs, List.all_reverse] using hacc
        · exact ih [] true (by simp [noWs]) p hp
    · have hacc' : noWs (c :: acc) = true := by
        simp only [noWs, List.all_cons, Bool.and_eq_true, Bool.not_eq_true']
        exact ⟨by simpa using h, hacc⟩
      exact ih (c :: acc) false hacc' p (by simpa [splitWsGo, h] using hp)

/-- Claim C4: the transcript text embedded in the quick-start prompt — segment
texts joined with single spaces, split on whitespace, first 6000 pieces kept,
rejoined with single spaces — contains at most 6000 whitespace-delimited
tokens. -/
theorem quickstart_prompt_token_bound (transcriptSegments : List TextSegment) :
    countWsTokens (quickStartTranscriptText transcriptSegments) ≤ 6000 := by
  simp only [quickStartTranscriptText]
  have hpieces : ∀ p ∈ (jsSplitWs (joinSep " "
      (transcriptSegments.map TextSegment.text))).take 6000, noWs p.data = true := by
    intro p hp
    exact splitWsGo_noWs _ [] false (by simp [noWs]) p (List.take_subset _ _ hp)
  have hbound := countTokens_joinSep_le _ hpieces
  have hlen := List.length_take_le 6000
    (jsSplitWs (joinSep " " (transcriptSegments.map TextSegment.text)))
  omega

/-! ## Claims about `fetchVideoTranscript` -/

/-- Claim C3: with no stored segments, a provider failure, an empty provider
result, or a persistence failure all yield the structured unavailable result,
and no user-video association is created. -/
theorem transcript_failure_structured_result (env : TranscriptEnv)
    (videoId : String) (hstored : env.storedRows = [])
    (herr : env.providerResult = .error () ∨ env.providerResult = .ok [] ∨
      env.persistOk = .error ()) :
    fetchVideoTranscript env videoId =
      ({ segments := []
         error := true
         errorMessage := some "Transcript not available for this video"
         userVideo := none }, false) := by
  obtain ⟨cu, sr, pr, po, ex⟩ := env
  simp only at hstored herr
  subst hstored
  cases cu with
  | error e => rfl
  | ok user =>
    rcases herr with h | h | h
    · subst h; rfl
    · subst h; rfl
    · cases pr with
      | error e => rfl
      | ok tr =>
        cases tr with
        | nil => rfl
        | cons a as => subst h; rfl

/-- Witness for C3: empty store, provider returns no entries. -/
theorem transcript_failure_structured_result_witness :
    fetchVideoTranscript emptyProviderEnv "vid" =
      ({ segments := []
         error := true
         errorMessage := some "Transcript not available for this video"
         userVideo := none }, false) :=
  transcript_failure_structured_result emptyProviderEnv "vid" rfl
    (Or.inr (Or.inl rfl))

/-- Claim C1 (code bug): with rows stored in descending `start` order, the
comparator `(a, b) => a.start - b.start` subtracts `HH:mm:ss` strings, which
is `NaN`; `Array.prototype.sort` treats a `NaN` comparator result as 0, so the
stable sort returns the rows in stored order, not sorted ascending by
`start`. -/
theorem stored_segments_returned_unsorted :
    ((fetchVideoTranscript unsortedRowsEnv "vid").1.segments.map
        TranscriptSegment.start = ["00:00:10", "00:00:05"]) ∧
      sortedByStart (fetchVideoTranscript unsortedRowsEnv "vid").1.segments =
        false ∧
      (fetchVideoTranscript unsortedRowsEnv "vid").1.segments =
        unsortedRowsEnv.storedRows.map toSegment := by
  refine ⟨by decide, by decide, by decide⟩

/-! ## Claims about language resolution -/

theorem numTruthy_eq_true_iff (o : Option Nat) :
    numTruthy o = true ↔ ∃ n, o = some n ∧ n ≠ 0 := by
  cases o <;> simp [numTruthy]

/-- Claim C8: the resolved language is "id" only when the stored preference is
exactly "id"; any other stored value, or any failure of user or preference
lookup, resolves to "en", and resolution never raises. -/
theorem language_resolution_fallback (env : LangEnv) :
    (resolveUserLanguage env = "id" → env.savedLanguage = .ok (some "id")) ∧
      ((env.currentUser = .error () ∨ env.savedLanguage = .error () ∨
          ∀ v, env.savedLanguage = .ok v → v ≠ some "en" ∧ v ≠ some "id") →
        resolveUserLanguage env = "en") := by
  obtain ⟨cu, sl⟩ := env
  constructor
  · intro h
    cases cu with
    | error e => simp [resolveUserLanguage] at h
    | ok u =>
      cases sl with
      | error e => simp [resolveUserLanguage] at h
      | ok v =>
        simp only [resolveUserLanguage] at h ⊢
        by_cases hv : v = some "en" ∨ v = some "id"
        · rw [if_pos hv] at h
          rcases hv with hv | hv
          · subst hv; simp at h
          · subst hv; rfl
        · rw [if_neg hv] at h
          simp at h
  · intro h
    cases cu with
    | error e => rfl
    | ok u =>
      rcases h with h | h | h
      · simp at h
      · simp only at h
        subst h
        rfl
      · cases sl with
        | error e => rfl
        | ok v =>
          have hv := h v rfl
          simp only [resolveUserLanguage]
          rw [if_neg]
          rintro (hv' | hv')
          · exact hv.1 hv'
          · exact hv.2 hv'

/-- Witness for C8: an invalid stored value resolves to "en". -/
theorem language_resolution_fallback_witness :
    resolveUserLanguage ⟨.ok ⟨1⟩, .ok (some "fr")⟩ = "en" :=
  (language_resolution_fallback ⟨.ok ⟨1⟩, .ok (some "fr")⟩).2
    (Or.inr (Or.inr (fun v hv => by
      cases hv
      exact ⟨by decide, by decide⟩)))

/-! ## Claims about the orchestrators -/

/-- Claim C9: `generateUserVideoSummary` hands the summarizer the text
`title \n description-or-empty \n segment-texts-joined` (the JS template
literal stringifies the array, joining with commas), together with the
resolved language, the external id of the video and the userVideoId, and returns
the result of the summarizer. -/
theorem summary_delegation (env : SummaryEnv) (video : Video)
    (segments : List TextSegment) (userVideoId : Option Nat) :
    generateUserVideoSummary env video segments userVideoId =
      env.generateSummary
        (video.title ++ "\n" ++ video.description.getD "" ++ "\n" ++
          joinSep "," (segments.map TextSegment.text))
        (resolveUserLanguage env.lang) video.youtubeId userVideoId := rfl

/-- Claim C7: a telemetry failure is absorbed; the returned question list is
exactly the structured-generation output, identical to what a successful
telemetry call yields. -/
theorem telemetry_failure_preserves_questions (env : QuickStartEnv)
    (transcriptSegments : List TextSegment)
    (videoTitle videoDescription : Option String) (userVideoId : Option Nat)
    (videoId : Option String) (_h : env.trackOk = .error ()) :
    (generateQuickStartQuestions env transcriptSegments videoTitle
        videoDescription userVideoId videoId).questions =
      (env.genResult.object.map QObject.questions).getD [] ∧
    (generateQuickStartQuestions env transcriptSegments videoTitle
        videoDescription userVideoId videoId).questions =
      (generateQuickStartQuestions { env with trackOk := .ok () }
        transcriptSegments videoTitle videoDescription userVideoId
        videoId).questions :=
  ⟨rfl, rfl⟩

/-- Witness for C7: a failing telemetry sink still yields the generated
question. -/
theorem telemetry_failure_preserves_questions_witness :
    (generateQuickStartQuestions { oneQuestionEnv with trackOk := .error () }
      [] none none none none).questions = ["q1"] :=
  (telemetry_failure_preserves_questions
    { oneQuestionEnv with trackOk := .error () } [] none none none none rfl).1

/-- Claim C10 counterexample: with `userVideoId = 0` provided and one question
produced, the JS truthiness test `userVideoId && ...` skips persistence, so
"persisted exactly when a userVideoId is provided and at least one question
was produced" fails at this input. -/
theorem quickstart_persist_zero_id_counterexample :
    (generateQuickStartQuestions oneQuestionEnv [] none none (some 0)
        none).persistedQuestions = none ∧
      (some 0 : Option Nat).isSome = true ∧
      (generateQuickStartQuestions oneQuestionEnv [] none none (some 0)
        none).questions = ["q1"] := by
  refine ⟨by decide, rfl, by decide⟩

/-- Claim C10 (amended): the question list is persisted exactly when a nonzero
`userVideoId` is provided and at least one question was produced; the question
list itself is always returned, an empty list being a normal result. -/
theorem quickstart_persist_amended (env : QuickStartEnv)
    (transcriptSegments : List TextSegment)
    (videoTitle videoDescription : Option String) (userVideoId : Option Nat)
    (videoId : Option String) :
    (generateQuickStartQuestions env transcriptSegments videoTitle
        videoDescription userVideoId videoId).questions =
      (env.genResult.object.map QObject.questions).getD [] ∧
    ((generateQuickStartQuestions env transcriptSegments videoTitle
        videoDescription userVideoId videoId).persistedQuestions ≠ none ↔
      ((∃ n, userVideoId = some n ∧ n ≠ 0) ∧
        (env.genResult.object.map QObject.questions).getD [] ≠ [])) := by
  refine ⟨rfl, ?_⟩
  show (if numTruthy userVideoId &&
      decide (0 < ((env.genResult.object.map QObject.questions).getD []).length)
    then some (userVideoId.getD 0,
      (env.genResult.object.map QObject.questions).getD [])
    else none) ≠ none ↔ _
  have hite : ∀ (c : Bool) (x : Nat × List String),
      (if c = true then some x else none) ≠ none ↔ c = true := by
    intro c x
    cases c <;> simp
  rw [hite, Bool.and_eq_true, numTruthy_eq_true_iff, decide_eq_true_eq,
    List.length_pos]

end Vidiopintar
